import Mathlib

/-!
Verification development for the SpeechBrain minimal RNN-Transducer example
(`recipes/minimal_examples/neural_networks/ASR_Transducer/example_asr_transducer_experiment.py`).

The file under verification is glue code around the SpeechBrain framework.
Framework classes (`DynamicItemDataset`, `CTCTextEncoder`, `ErrorRateStats`,
tensors and network modules) live elsewhere in the repository; where their
behaviour decides a property, they are modelled here from the specification's
description (definitions marked `Modelled from the spec:`).  The functions of
the example file itself (`text_pipeline`, `data_prep`, the `TransducerBrain`
hooks, the final assertion of `main`) are translated directly from the source.
-/

/-- The three experiment stages driven by the external training loop. -/
inductive Stage where
  | TRAIN
  | VALID
  | TEST
deriving DecidableEq, Repr

/-- One utterance entry of a JSON manifest: id, audio path, phoneme transcript. -/
structure DataRecord where
  id : String
  wav : String
  phn : String
deriving DecidableEq, Repr

/-- Modelled from the spec: `speechbrain.data_io.dataset.DynamicItemDataset` is not
under `src/`; the spec describes a dataset as records read from a JSON manifest with
a set of externally visible output fields. -/
structure DynamicItemDataset where
  records : List DataRecord
  output_keys : List String
deriving DecidableEq, Repr

/-- Splitting on whitespace runs: accumulate non-whitespace characters, emit a
token at each whitespace boundary, drop empty tokens. -/
def pySplitAux : List Char → List Char → List String
  | [], acc => if acc.isEmpty then [] else [String.mk acc.reverse]
  | c :: cs, acc =>
    if c.isWhitespace then
      if acc.isEmpty then pySplitAux cs []
      else String.mk acc.reverse :: pySplitAux cs []
    else pySplitAux cs (c :: acc)

/-- Python `s.strip().split()` (line 109 of the source:
`phn_list = phn.strip().split()`): split on whitespace runs, dropping empty
tokens; the strip is subsumed by dropping empty leading/trailing tokens. -/
def pySplit (s : String) : List String :=
  pySplitAux s.data []

/-- Modelled from the spec: `speechbrain.data_io.encoder.CTCTextEncoder` is not under
`src/`; the spec describes it as "a mapping from phoneme symbol to integer id,
including reserved ids for blank, beginning-of-sequence and end-of-sequence markers",
fitted once by scanning the token lists of both datasets. -/
structure CTCTextEncoder where
  lab2ind : List (String × Nat)
  blank_index : Option Nat
  bos_index : Option Nat
  eos_index : Option Nat
deriving DecidableEq, Repr

/-- The fresh encoder produced by `CTCTextEncoder()`. -/
def CTCTextEncoder.init : CTCTextEncoder :=
  { lab2ind := [], blank_index := none, bos_index := none, eos_index := none }

/-- The labels currently in the encoder's vocabulary, in insertion order. -/
def CTCTextEncoder.labels (e : CTCTextEncoder) : List String :=
  e.lab2ind.map Prod.fst

/-- Smallest index not in `used`, searching upward from `k` with fuel. -/
def nextFreeFrom (used : List Nat) : Nat → Nat → Nat
  | 0, k => k
  | fuel + 1, k => if used.contains k then nextFreeFrom used fuel (k + 1) else k

/-- Modelled from the spec: the framework assigns each newly observed label the next
free integer id. -/
def CTCTextEncoder.next_index (e : CTCTextEncoder) : Nat :=
  nextFreeFrom (e.lab2ind.map Prod.snd) (e.lab2ind.length + 1) 0

/-- Add a label (assumed absent) with the next free id. -/
def CTCTextEncoder.add_label (e : CTCTextEncoder) (label : String) : CTCTextEncoder :=
  { e with lab2ind := e.lab2ind ++ [(label, e.next_index)] }

/-- Add a label only if it is not already in the vocabulary. -/
def CTCTextEncoder.ensure_label (e : CTCTextEncoder) (label : String) : CTCTextEncoder :=
  if label ∈ e.labels then e else e.add_label label

/-- Modelled from the spec: `insert_blank` reserves the blank token at the configured
index (source line 120: `label_encoder.insert_blank(index=hparams["blank_index"])`). -/
def CTCTextEncoder.insert_blank (e : CTCTextEncoder) (index : Nat) : CTCTextEncoder :=
  { e with lab2ind := e.lab2ind ++ [("<blank>", index)], blank_index := some index }

/-- Modelled from the spec: `insert_bos_eos` is not under `src/`; the spec reserves
ids for the beginning-of-sequence and end-of-sequence markers, so the model inserts
the bos marker at the configured index and the eos marker right after it
(source lines 121-123 pass `bos_index=hparams["bos_index"]` and `eos_label="<bos>"`). -/
def CTCTextEncoder.insert_bos_eos (e : CTCTextEncoder) (bos_index : Nat)
    (eos_label : String) : CTCTextEncoder :=
  { e with
    lab2ind := e.lab2ind ++ [("<bos>", bos_index), (eos_label, bos_index + 1)],
    bos_index := some bos_index,
    eos_index := some (bos_index + 1) }

/-- All phoneme tokens of a manifest, in record order (each record's token list is
`pySplit r.phn`, exactly the `phn_list` stage of the source's `text_pipeline`). -/
def tokensOf : List DataRecord → List String
  | [] => []
  | r :: rest => pySplit r.phn ++ tokensOf rest

/-- Modelled from the spec: `update_from_didataset` "fits the label encoder's
vocabulary by scanning the token lists" of a dataset, adding each unseen symbol
(source lines 124-125, `output_key="phn_list"`). -/
def CTCTextEncoder.update_from_didataset (e : CTCTextEncoder)
    (ds : DynamicItemDataset) : CTCTextEncoder :=
  (tokensOf ds.records).foldl (fun a t => a.ensure_label t) e

/-- Look up the id of one label (first match in insertion order). -/
def CTCTextEncoder.encode_label (e : CTCTextEncoder) (label : String) : Option Nat :=
  (e.lab2ind.find? (fun p => p.1 == label)).map Prod.snd

/-- Modelled from the spec: `encode_sequence_torch` maps each token of the list to
its integer id; an unknown token is a lookup failure. -/
def CTCTextEncoder.encode_sequence_torch (e : CTCTextEncoder)
    (labels : List String) : Option (List Nat) :=
  labels.mapM e.encode_label

/-- Modelled from the spec: `prepend_bos_index` prepends the configured
beginning-of-sequence index to an encoded sequence; it fails if no bos was set. -/
def CTCTextEncoder.prepend_bos_index (e : CTCTextEncoder)
    (seq : List Nat) : Option (List Nat) :=
  e.bos_index.map (fun b => b :: seq)

/-- The three outputs of the source's `text_pipeline` (lines 108-114). -/
structure TextPipelineOut where
  phn_list : List String
  phn_encoded : List Nat
  phn_encoded_bos : List Nat
deriving DecidableEq, Repr

/-- The source's `text_pipeline` (lines 108-114): split the transcript, encode it,
prepend the bos index (`.long()` is a dtype cast, modelled as the identity). -/
def text_pipeline (label_encoder : CTCTextEncoder) (phn : String) :
    Option TextPipelineOut :=
  match label_encoder.encode_sequence_torch (pySplit phn) with
  | none => none
  | some phn_encoded =>
    match label_encoder.prepend_bos_index phn_encoded with
    | none => none
    | some phn_encoded_bos => some ⟨pySplit phn, phn_encoded, phn_encoded_bos⟩

/-- The hyperparameters `data_prep` reads (`hparams["blank_index"]`,
`hparams["bos_index"]`); the YAML file is external configuration. -/
structure PrepHParams where
  blank_index : Nat
  bos_index : Nat
deriving DecidableEq, Repr

/-- The output fields installed by `set_output_keys` (source lines 128-130). -/
def dataPrepOutputKeys : List String :=
  ["id", "sig", "phn_encoded", "phn_encoded_bos"]

/-- The source's `data_prep` (lines 79-131): build the two datasets from their
manifests, reserve blank and bos/eos in a fresh label encoder, fit the vocabulary
from the token lists of train then valid data, and set the four output keys.
File reading (`from_json`) is modelled by passing the manifests directly. -/
def data_prep (train_manifest dev_manifest : List DataRecord) (hparams : PrepHParams) :
    DynamicItemDataset × DynamicItemDataset × CTCTextEncoder :=
  let train_data : DynamicItemDataset := { records := train_manifest, output_keys := [] }
  let valid_data : DynamicItemDataset := { records := dev_manifest, output_keys := [] }
  let label_encoder := CTCTextEncoder.init
  let label_encoder := label_encoder.insert_blank hparams.blank_index
  let label_encoder := label_encoder.insert_bos_eos hparams.bos_index "<bos>"
  let label_encoder := label_encoder.update_from_didataset train_data
  let label_encoder := label_encoder.update_from_didataset valid_data
  let train_data := { train_data with output_keys := dataPrepOutputKeys }
  let valid_data := { valid_data with output_keys := dataPrepOutputKeys }
  (train_data, valid_data, label_encoder)

/-- A collated batch as the hooks see it: ids, `sig`, `phn_encoded`,
`phn_encoded_bos`, each signal/sequence field paired with its lengths tensor
(`ι` collated ids, `α` tensors; `batch.to(self.device)` is modelled as the
identity, as is the `.long()` dtype cast). -/
structure Batch (ι α : Type) where
  id : ι
  sig : α × α
  phn_encoded : α × α
  phn_encoded_bos : α × α

/-- Modelled from the spec: the framework-managed learnable modules used by
`compute_forward`; each is an opaque tensor function configured in the YAML file. -/
structure Modules (α : Type) where
  compute_features : α → α
  mean_var_norm : α → α → α
  enc : α → α
  enc_lin : α → α
  emb : α → α
  dec : α → α × α
  dec_lin : α → α
  Tjoint : α → α → α
  output : α → α

/-- Modelled from the spec: the tensor operation `unsqueeze` (axis insertion),
delegated to the external framework. -/
structure TensorOps (α : Type) where
  unsqueeze : α → Nat → α

/-- Modelled from the spec: the hyperparameter objects `compute_forward` reads:
the log-softmax projection and the beam searcher, which returns
`(hyps, scores, _, _)`. -/
structure ForwardHParams (α β : Type) where
  log_softmax : α → α
  searcher : α → β × α × α × α

/-- The transcription-network output of `compute_forward` (source lines 19-24):
features, normalization, encoder, encoder projection. -/
def TN_output (m : Modules α) (batch : Batch ι α) : α :=
  m.enc_lin (m.enc (m.mean_var_norm (m.compute_features batch.sig.1) batch.sig.2))

/-- The prediction-network output of `compute_forward` (source lines 27-30):
embed the bos-prefixed targets, run the decoder, project. -/
def PN_output (m : Modules α) (batch : Batch ι α) : α :=
  m.dec_lin (m.dec (m.emb batch.phn_encoded_bos.1)).1

/-- The joint log-probabilities of `compute_forward` (source lines 33-37). -/
def forward_logp (ops : TensorOps α) (m : Modules α) (hp : ForwardHParams α β)
    (batch : Batch ι α) : α :=
  hp.log_softmax (m.output (m.Tjoint (ops.unsqueeze (TN_output m batch) 2)
    (ops.unsqueeze (PN_output m batch) 1)))

/-- The source's `compute_forward` (lines 15-42): log-probabilities and lengths
during training, additionally the beam-search hypotheses over the
transcription-network output otherwise. -/
def compute_forward (ops : TensorOps α) (m : Modules α) (hp : ForwardHParams α β)
    (batch : Batch ι α) (stage : Stage) : (α × α) ⊕ (α × α × β) :=
  if stage = Stage.TRAIN then
    Sum.inl (forward_logp ops m hp batch, batch.sig.2)
  else
    Sum.inr (forward_logp ops m hp batch, batch.sig.2,
      (hp.searcher (TN_output m batch)).1)

/-- Modelled from the spec: the phoneme-error-rate accumulator
(`ErrorRateStats`, the `per_stats` object of the YAML file): the entries appended
so far, each `(ids, predicted, target, target_len)`. -/
structure PERStats (ι β α : Type) where
  scores : List (ι × β × α × α)
deriving DecidableEq, Repr

/-- The mutable state of the `TransducerBrain` wrapper: the remembered training
loss and the error-rate accumulator; `none` models a Python attribute that has
never been assigned (reading it raises `AttributeError`). -/
structure TransducerBrain (L ι β α : Type) where
  train_loss : Option L
  per_metrics : Option (PERStats ι β α)
deriving DecidableEq, Repr

/-- A freshly constructed `TransducerBrain`: neither attribute has been set. -/
def initBrain : TransducerBrain L ι β α :=
  { train_loss := none, per_metrics := none }

/-- Modelled from the spec: the hyperparameter objects the loss and stage hooks
read: the transducer loss (`compute_cost`) and the error-rate summary
(`summarize("error_rate")`). -/
structure BrainHParams (L ι β α : Type) where
  compute_cost : α → α → α → α → L
  summarize : PERStats ι β α → L

/-- One line printed by `on_stage_end`, with the values it interpolates. -/
inductive PrintEvent (L : Type) where
  | epochComplete (epoch : Nat)
  | trainLoss (loss : L)
  | stageLoss (stage : Stage) (loss : L)
  | stagePER (stage : Stage) (per : L)
deriving DecidableEq, Repr

/-- The source's `compute_objectives` (lines 44-60): unpack the predictions
according to the stage (a mismatched unpacking is a `ValueError`), outside
training append `(batch.id, seq, phns, phn_lens)` to the error-rate accumulator
(reading an unset accumulator is an `AttributeError`), and return the loss with
the updated wrapper state. -/
def compute_objectives (hp : BrainHParams L ι β α) (b : TransducerBrain L ι β α)
    (predictions : (α × α) ⊕ (α × α × β)) (batch : Batch ι α) (stage : Stage) :
    Except String (L × TransducerBrain L ι β α) :=
  let phns := batch.phn_encoded.1
  let phn_lens := batch.phn_encoded.2
  match stage, predictions with
  | Stage.TRAIN, Sum.inl (preds, lens) =>
    Except.ok (hp.compute_cost preds phns lens phn_lens, b)
  | Stage.TRAIN, Sum.inr _ =>
    Except.error "ValueError: too many values to unpack"
  | _, Sum.inl _ =>
    Except.error "ValueError: not enough values to unpack"
  | _, Sum.inr (preds, lens, seq) =>
    match b.per_metrics with
    | none => Except.error "AttributeError: per_metrics"
    | some m =>
      Except.ok (hp.compute_cost preds phns lens phn_lens,
        { b with per_metrics := some ⟨m.scores ++ [(batch.id, seq, phns, phn_lens)]⟩ })

/-- The source's `on_stage_start` (lines 62-65): outside training, install a
fresh (empty) error-rate accumulator; during training, do nothing. -/
def on_stage_start (b : TransducerBrain L ι β α) (stage : Stage)
    (epoch : Option Nat) : TransducerBrain L ι β α :=
  if stage ≠ Stage.TRAIN then { b with per_metrics := some ⟨[]⟩ } else b

/-- The source's `on_stage_end` (lines 67-76), returning the updated wrapper
state and the printed lines in order; reading an attribute that was never set
is an `AttributeError`. -/
def on_stage_end (hp : BrainHParams L ι β α) (b : TransducerBrain L ι β α)
    (stage : Stage) (stage_loss : L) (epoch : Option Nat) :
    Except String (TransducerBrain L ι β α × List (PrintEvent L)) :=
  let b1 := if stage = Stage.TRAIN then { b with train_loss := some stage_loss } else b
  let validOut : Except String (List (PrintEvent L)) :=
    match epoch with
    | some e =>
      if stage = Stage.VALID then
        match b1.train_loss with
        | none => Except.error "AttributeError: train_loss"
        | some tl => Except.ok [PrintEvent.epochComplete e, PrintEvent.trainLoss tl]
      else Except.ok []
    | none => Except.ok []
  match validOut with
  | Except.error msg => Except.error msg
  | Except.ok out =>
    if stage ≠ Stage.TRAIN then
      match b1.per_metrics with
      | none => Except.error "AttributeError: per_metrics"
      | some m =>
        Except.ok (b1, out ++ [PrintEvent.stageLoss stage stage_loss,
          PrintEvent.stagePER stage (hp.summarize m)])
    else Except.ok (b1, out)

/-- One stage-boundary call made by the external training loop. -/
inductive BrainCall (L : Type) where
  | callStart (stage : Stage) (epoch : Option Nat)
  | callEnd (stage : Stage) (stage_loss : L) (epoch : Option Nat)
deriving DecidableEq, Repr

/-- Run a sequence of stage-boundary calls against the wrapper, collecting the
printed lines; an attribute error aborts the run as an uncaught exception. -/
def runCalls (hp : BrainHParams L ι β α) (b : TransducerBrain L ι β α) :
    List (BrainCall L) → Except String (TransducerBrain L ι β α × List (PrintEvent L))
  | [] => Except.ok (b, [])
  | BrainCall.callStart stage epoch :: rest =>
    runCalls hp (on_stage_start b stage epoch) rest
  | BrainCall.callEnd stage stage_loss epoch :: rest =>
    match on_stage_end hp b stage stage_loss epoch with
    | Except.error msg => Except.error msg
    | Except.ok (b2, out) =>
      match runCalls hp b2 rest with
      | Except.error msg => Except.error msg
      | Except.ok (b3, out2) => Except.ok (b3, out ++ out2)

/-- Whether a call sequence contains a training-stage end. -/
def hasTrainEnd : List (BrainCall L) → Bool
  | [] => false
  | BrainCall.callEnd Stage.TRAIN _ _ :: _ => true
  | _ :: rest => hasTrainEnd rest

/-- The source's final overfitting check (line 164,
`assert trasducer_brain.train_loss < 1.0`): reading the never-set attribute is
an `AttributeError`, a loss not strictly below 1 an `AssertionError`; losses are
modelled as rationals. -/
def mainAssert (b : TransducerBrain ℚ ι β α) : Except String Unit :=
  match b.train_loss with
  | none => Except.error "AttributeError: train_loss"
  | some tl => if tl < 1 then Except.ok () else Except.error "AssertionError"

/-- Vocabulary fitting, abstracted: fold a token list into a list of seen labels,
appending each token not seen yet (the label sequence of `ensure_label` folds). -/
def addNew (seen : List String) (l : List String) : List String :=
  l.foldl (fun acc t => if t ∈ acc then acc else acc ++ [t]) seen

/-- Concrete tensor operations over `Nat`, for evaluating the model on inputs. -/
def natOps : TensorOps Nat :=
  { unsqueeze := fun a _ => a }

/-- Concrete modules over `Nat`, for evaluating the model on inputs. -/
def natModules : Modules Nat :=
  { compute_features := id, mean_var_norm := fun a _ => a, enc := id, enc_lin := id,
    emb := id, dec := fun a => (a, a), dec_lin := id, Tjoint := fun a b => a + b,
    output := id }

/-- Concrete forward hyperparameters over `Nat`. -/
def natForwardHParams : ForwardHParams Nat Nat :=
  { log_softmax := id, searcher := fun a => (a, a, a, a) }

/-- A concrete batch over `Nat`. -/
def natBatch : Batch Nat Nat :=
  { id := 0, sig := (1, 2), phn_encoded := (3, 4), phn_encoded_bos := (5, 6) }

/-- Concrete loss/metric hyperparameters over `Nat`. -/
def natBrainHParams : BrainHParams Nat Nat Nat Nat :=
  { compute_cost := fun _ _ _ _ => 0, summarize := fun s => s.scores.length }

/-- C5: after `data_prep` returns, each of the two returned datasets exposes
exactly the four output fields `id`, `sig`, `phn_encoded`, `phn_encoded_bos`,
and no other fields. -/
theorem data_prep_output_fields (tm dm : List DataRecord) (hp : PrepHParams) :
    (data_prep tm dm hp).1.output_keys = ["id", "sig", "phn_encoded", "phn_encoded_bos"] ∧
    (data_prep tm dm hp).2.1.output_keys = ["id", "sig", "phn_encoded", "phn_encoded_bos"] :=
  ⟨rfl, rfl⟩

/-- C6: invoking `data_prep` twice with the same manifests and hyperparameters
yields datasets of identical size and identical per-record encoded sequences. -/
theorem data_prep_deterministic (tm dm : List DataRecord) (hp : PrepHParams)
    (o1 o2 : DynamicItemDataset × DynamicItemDataset × CTCTextEncoder)
    (h1 : o1 = data_prep tm dm hp) (h2 : o2 = data_prep tm dm hp) :
    o1.1.records.length = o2.1.records.length ∧
    o1.2.1.records.length = o2.2.1.records.length ∧
    ∀ r : DataRecord, text_pipeline o1.2.2 r.phn = text_pipeline o2.2.2 r.phn := by
  subst h1; subst h2
  exact ⟨rfl, rfl, fun _ => rfl⟩

/-- Witness for C6 at a concrete manifest pair. -/
theorem data_prep_deterministic_witness :
    (data_prep [⟨"u1", "s1.wav", "a b"⟩] [] ⟨0, 1⟩ =
      data_prep [⟨"u1", "s1.wav", "a b"⟩] [] ⟨0, 1⟩) ∧
    ((data_prep [⟨"u1", "s1.wav", "a b"⟩] [] ⟨0, 1⟩).1.records.length =
      (data_prep [⟨"u1", "s1.wav", "a b"⟩] [] ⟨0, 1⟩).1.records.length ∧
     (data_prep [⟨"u1", "s1.wav", "a b"⟩] [] ⟨0, 1⟩).2.1.records.length =
      (data_prep [⟨"u1", "s1.wav", "a b"⟩] [] ⟨0, 1⟩).2.1.records.length ∧
     ∀ r : DataRecord,
       text_pipeline (data_prep [⟨"u1", "s1.wav", "a b"⟩] [] ⟨0, 1⟩).2.2 r.phn =
       text_pipeline (data_prep [⟨"u1", "s1.wav", "a b"⟩] [] ⟨0, 1⟩).2.2 r.phn) :=
  ⟨rfl, data_prep_deterministic _ _ _ _ _ rfl rfl⟩

/-- C3: `compute_forward` returns the pair (log-probabilities, lengths) when the
stage is TRAIN, and otherwise the triple whose third component is the beam
searcher's hypotheses over the transcription-network output. -/
theorem compute_forward_stage_shape (ops : TensorOps α) (m : Modules α)
    (hp : ForwardHParams α β) (batch : Batch ι α) (stage : Stage) :
    (stage = Stage.TRAIN →
      compute_forward ops m hp batch stage =
        Sum.inl (forward_logp ops m hp batch, batch.sig.2)) ∧
    (stage ≠ Stage.TRAIN →
      compute_forward ops m hp batch stage =
        Sum.inr (forward_logp ops m hp batch, batch.sig.2,
          (hp.searcher (TN_output m batch)).1)) := by
  constructor <;> intro h <;> simp [compute_forward, h]

/-- Witness for C3 at concrete modules and batch, for both stage shapes. -/
theorem compute_forward_stage_shape_witness :
    (compute_forward natOps natModules natForwardHParams natBatch Stage.TRAIN =
      Sum.inl (6, 2)) ∧
    (Stage.VALID ≠ Stage.TRAIN ∧
      compute_forward natOps natModules natForwardHParams natBatch Stage.VALID =
        Sum.inr (6, 2, 1)) :=
  ⟨(compute_forward_stage_shape natOps natModules natForwardHParams natBatch
      Stage.TRAIN).1 rfl,
   by decide,
   (compute_forward_stage_shape natOps natModules natForwardHParams natBatch
      Stage.VALID).2 (by decide)⟩

/-- C8: `on_stage_start` installs a fresh empty error-rate accumulator exactly
when the stage is not TRAIN, and leaves the wrapper state unchanged on TRAIN. -/
theorem on_stage_start_spec (b : TransducerBrain L ι β α) (stage : Stage)
    (epoch : Option Nat) :
    (stage ≠ Stage.TRAIN →
      on_stage_start b stage epoch = { b with per_metrics := some ⟨[]⟩ }) ∧
    (stage = Stage.TRAIN → on_stage_start b stage epoch = b) := by
  constructor <;> intro h <;> simp [on_stage_start, h]

/-- Witness for C8 at a concrete wrapper state, for both stage cases. -/
theorem on_stage_start_spec_witness :
    (Stage.VALID ≠ Stage.TRAIN ∧
      on_stage_start (⟨some 3, none⟩ : TransducerBrain Nat Nat Nat Nat)
        Stage.VALID none = ⟨some 3, some ⟨[]⟩⟩) ∧
    on_stage_start (⟨some 3, none⟩ : TransducerBrain Nat Nat Nat Nat)
      Stage.TRAIN none = ⟨some 3, none⟩ :=
  ⟨⟨by decide,
    (on_stage_start_spec (⟨some 3, none⟩ : TransducerBrain Nat Nat Nat Nat)
      Stage.VALID none).1 (by decide)⟩,
   (on_stage_start_spec (⟨some 3, none⟩ : TransducerBrain Nat Nat Nat Nat)
      Stage.TRAIN none).2 rfl⟩

/-- C7: given the training loop set the remembered training loss, the final
check of `main` raises an assertion error exactly when that loss is not
strictly below 1, and returns normally otherwise. -/
theorem main_assert_iff (b : TransducerBrain ℚ ι β α) (tl : ℚ)
    (h : b.train_loss = some tl) :
    (mainAssert b = Except.error "AssertionError" ↔ ¬ tl < 1) ∧
    (tl < 1 → mainAssert b = Except.ok ()) := by
  unfold mainAssert
  rw [h]
  by_cases hlt : tl < 1 <;> simp [hlt]

/-- Witness for C7 at a concrete passing loss. -/
theorem main_assert_iff_witness :
    ((⟨some 0, none⟩ : TransducerBrain ℚ Nat Nat Nat).train_loss = some 0) ∧
    ((mainAssert (⟨some 0, none⟩ : TransducerBrain ℚ Nat Nat Nat) =
        Except.error "AssertionError" ↔ ¬ (0 : ℚ) < 1) ∧
     ((0 : ℚ) < 1 →
        mainAssert (⟨some 0, none⟩ : TransducerBrain ℚ Nat Nat Nat) =
          Except.ok ())) :=
  ⟨rfl, main_assert_iff _ 0 rfl⟩

/-- C10: `compute_objectives` on TRAIN returns the loss with the wrapper state
untouched; on any other stage it changes exactly the error-rate accumulator,
appending the one entry for the batch. -/
theorem compute_objectives_frame (hp : BrainHParams L ι β α)
    (b : TransducerBrain L ι β α) (batch : Batch ι α) :
    (∀ p : α × α,
      compute_objectives hp b (Sum.inl p) batch Stage.TRAIN =
        Except.ok (hp.compute_cost p.1 batch.phn_encoded.1 p.2 batch.phn_encoded.2, b)) ∧
    (∀ (stage : Stage) (pr : α × α × β) (m : PERStats ι β α),
      stage ≠ Stage.TRAIN → b.per_metrics = some m →
      compute_objectives hp b (Sum.inr pr) batch stage =
        Except.ok (hp.compute_cost pr.1 batch.phn_encoded.1 pr.2.1 batch.phn_encoded.2,
          { b with per_metrics := some (PERStats.mk
              (m.scores ++ [(batch.id, pr.2.2, batch.phn_encoded.1, batch.phn_encoded.2)])) })) := by
  constructor
  · rintro ⟨preds, lens⟩
    rfl
  · rintro stage ⟨preds, lens, seq⟩ m hs hm
    cases stage with
    | TRAIN => exact absurd rfl hs
    | VALID => simp [compute_objectives, hm]
    | TEST => simp [compute_objectives, hm]

/-- Witness for C10 at a concrete wrapper state and batch, for both stages. -/
theorem compute_objectives_frame_witness :
    (compute_objectives natBrainHParams ⟨some 7, some ⟨[]⟩⟩ (Sum.inl (1, 2))
      natBatch Stage.TRAIN = Except.ok (0, ⟨some 7, some ⟨[]⟩⟩)) ∧
    (Stage.VALID ≠ Stage.TRAIN ∧
      (⟨some 7, some ⟨[]⟩⟩ : TransducerBrain Nat Nat Nat Nat).per_metrics = some ⟨[]⟩ ∧
      compute_objectives natBrainHParams ⟨some 7, some ⟨[]⟩⟩ (Sum.inr (1, 2, 9))
        natBatch Stage.VALID = Except.ok (0, ⟨some 7, some ⟨[(0, 9, 3, 4)]⟩⟩)) :=
  ⟨(compute_objectives_frame natBrainHParams ⟨some 7, some ⟨[]⟩⟩ natBatch).1 (1, 2),
   by decide, rfl,
   (compute_objectives_frame natBrainHParams ⟨some 7, some ⟨[]⟩⟩ natBatch).2
     Stage.VALID (1, 2, 9) ⟨[]⟩ (by decide) rfl⟩

/-- `on_stage_start` never touches the remembered training loss. -/
theorem on_stage_start_train_loss (b : TransducerBrain L ι β α) (stage : Stage)
    (epoch : Option Nat) :
    (on_stage_start b stage epoch).train_loss = b.train_loss := by
  unfold on_stage_start
  split <;> rfl

/-- A successful `on_stage_end` sets the remembered training loss on TRAIN and
keeps it unchanged on every other stage. -/
theorem on_stage_end_ok_train_loss (hp : BrainHParams L ι β α)
    (b : TransducerBrain L ι β α) (stage : Stage) (sl : L) (ep : Option Nat)
    (b2 : TransducerBrain L ι β α) (out : List (PrintEvent L))
    (h : on_stage_end hp b stage sl ep = Except.ok (b2, out)) :
    b2.train_loss = if stage = Stage.TRAIN then some sl else b.train_loss := by
  cases stage <;> cases ep <;>
    rcases htl : b.train_loss with _ | tl <;>
    rcases hpm : b.per_metrics with _ | m <;>
    simp [on_stage_end, htl, hpm] at h <;>
    obtain ⟨h1, h2⟩ := h <;>
    simp [← h1, htl]

/-- If no training-stage end occurs in a successful call sequence, the
remembered training loss is never written. -/
theorem runCalls_no_train_end (hp : BrainHParams L ι β α) :
    ∀ (cs : List (BrainCall L)) (b b' : TransducerBrain L ι β α)
      (out : List (PrintEvent L)),
    hasTrainEnd cs = false → runCalls hp b cs = Except.ok (b', out) →
    b'.train_loss = b.train_loss := by
  intro cs
  induction cs with
  | nil =>
    intro b b' out _ h
    simp [runCalls] at h
    obtain ⟨h1, _⟩ := h
    simp [← h1]
  | cons c rest ih =>
    intro b b' out hno h
    cases c with
    | callStart s e =>
      simp only [runCalls] at h
      have hrest : hasTrainEnd rest = false := by simpa [hasTrainEnd] using hno
      rw [ih _ _ _ hrest h, on_stage_start_train_loss]
    | callEnd s sl e =>
      have hs : s ≠ Stage.TRAIN := by
        intro hEq
        subst hEq
        simp [hasTrainEnd] at hno
      have hrest : hasTrainEnd rest = false := by
        cases s <;> simpa [hasTrainEnd] using hno
      rcases hoe : on_stage_end hp b s sl e with msg | p
      · simp [runCalls, hoe] at h
      · obtain ⟨b2, out1⟩ := p
        rcases hrc : runCalls hp b2 rest with msg | q
        · simp [runCalls, hoe, hrc] at h
        · obtain ⟨b3, out2⟩ := q
          simp [runCalls, hoe, hrc] at h
          obtain ⟨h1, _⟩ := h
          have h2 := on_stage_end_ok_train_loss hp b s sl e b2 out1 hoe
          rw [if_neg hs] at h2
          rw [← h1, ih _ _ _ hrest hrc, h2]

/-- A successful call sequence never erases an already-set training loss. -/
theorem runCalls_keeps_train_loss (hp : BrainHParams L ι β α) :
    ∀ (cs : List (BrainCall L)) (b b' : TransducerBrain L ι β α)
      (out : List (PrintEvent L)),
    runCalls hp b cs = Except.ok (b', out) → b.train_loss.isSome = true →
    b'.train_loss.isSome = true := by
  intro cs
  induction cs with
  | nil =>
    intro b b' out h hsome
    simp [runCalls] at h
    obtain ⟨h1, _⟩ := h
    rw [← h1]
    exact hsome
  | cons c rest ih =>
    intro b b' out h hsome
    cases c with
    | callStart s e =>
      simp only [runCalls] at h
      exact ih _ _ _ h (by rw [on_stage_start_train_loss]; exact hsome)
    | callEnd s sl e =>
      rcases hoe : on_stage_end hp b s sl e with msg | p
      · simp [runCalls, hoe] at h
      · obtain ⟨b2, out1⟩ := p
        rcases hrc : runCalls hp b2 rest with msg | q
        · simp [runCalls, hoe, hrc] at h
        · obtain ⟨b3, out2⟩ := q
          simp [runCalls, hoe, hrc] at h
          obtain ⟨h1, _⟩ := h
          have h2 := on_stage_end_ok_train_loss hp b s sl e b2 out1 hoe
          have hb2 : b2.train_loss.isSome = true := by
            rw [h2]
            split
            · rfl
            · exact hsome
          rw [← h1]
          exact ih _ _ _ hrc hb2

/-- After a successful call sequence containing a training-stage end, the
remembered training loss is set. -/
theorem runCalls_train_end_isSome (hp : BrainHParams L ι β α) :
    ∀ (cs : List (BrainCall L)) (b b' : TransducerBrain L ι β α)
      (out : List (PrintEvent L)),
    hasTrainEnd cs = true → runCalls hp b cs = Except.ok (b', out) →
    b'.train_loss.isSome = true := by
  intro cs
  induction cs with
  | nil =>
    intro b b' out hyes _
    simp [hasTrainEnd] at hyes
  | cons c rest ih =>
    intro b b' out hyes h
    cases c with
    | callStart s e =>
      simp only [runCalls] at h
      exact ih _ _ _ (by simpa [hasTrainEnd] using hyes) h
    | callEnd s sl e =>
      rcases hoe : on_stage_end hp b s sl e with msg | p
      · simp [runCalls, hoe] at h
      · obtain ⟨b2, out1⟩ := p
        rcases hrc : runCalls hp b2 rest with msg | q
        · simp [runCalls, hoe, hrc] at h
        · obtain ⟨b3, out2⟩ := q
          simp [runCalls, hoe, hrc] at h
          obtain ⟨h1, _⟩ := h
          have h2 := on_stage_end_ok_train_loss hp b s sl e b2 out1 hoe
          cases s with
          | TRAIN =>
            have hb2 : b2.train_loss.isSome = true := by
              rw [h2]
              rfl
            rw [← h1]
            exact runCalls_keeps_train_loss hp rest b2 b3 out2 hrc hb2
          | VALID =>
            rw [← h1]
            exact ih _ _ _ (by simpa [hasTrainEnd] using hyes) hrc
          | TEST =>
            rw [← h1]
            exact ih _ _ _ (by simpa [hasTrainEnd] using hyes) hrc

/-- Reading the training loss before it was ever assigned fails. -/
theorem on_stage_end_valid_unset (hp : BrainHParams L ι β α)
    (b : TransducerBrain L ι β α) (sl : L) (e : Nat)
    (h : b.train_loss = none) :
    on_stage_end hp b Stage.VALID sl (some e) =
      Except.error "AttributeError: train_loss" := by
  simp [on_stage_end, h]

/-- C9: if no training-stage end has occurred, ending a VALID stage with an
epoch fails on reading the never-assigned training loss; once a training-stage
end has occurred, the read succeeds. -/
theorem train_loss_read_safety (hp : BrainHParams L ι β α)
    (cs : List (BrainCall L)) (b : TransducerBrain L ι β α)
    (out : List (PrintEvent L)) (sl : L) (e : Nat)
    (hrun : runCalls hp initBrain cs = Except.ok (b, out)) :
    (hasTrainEnd cs = false →
      on_stage_end hp b Stage.VALID sl (some e) =
        Except.error "AttributeError: train_loss") ∧
    (hasTrainEnd cs = true → b.train_loss.isSome = true) := by
  constructor
  · intro hno
    have hnone : b.train_loss = none := by
      rw [runCalls_no_train_end hp cs initBrain b out hno hrun]
      rfl
    exact on_stage_end_valid_unset hp b sl e hnone
  · intro hyes
    exact runCalls_train_end_isSome hp cs initBrain b out hyes hrun

/-- Witness for C9: a VALID start alone leaves the training loss unset and the
VALID-stage end fails; one TRAIN end sets it. -/
theorem train_loss_read_safety_witness :
    (runCalls natBrainHParams initBrain [BrainCall.callStart Stage.VALID (some 1)] =
      Except.ok (⟨none, some ⟨[]⟩⟩, []) ∧
     hasTrainEnd ([BrainCall.callStart Stage.VALID (some 1)] : List (BrainCall Nat)) = false ∧
     on_stage_end natBrainHParams ⟨none, some ⟨[]⟩⟩ Stage.VALID 5 (some 2) =
       Except.error "AttributeError: train_loss") ∧
    (runCalls natBrainHParams initBrain [BrainCall.callEnd Stage.TRAIN 3 (some 1)] =
      Except.ok (⟨some 3, none⟩, []) ∧
     hasTrainEnd ([BrainCall.callEnd Stage.TRAIN 3 (some 1)] : List (BrainCall Nat)) = true ∧
     (⟨some 3, none⟩ : TransducerBrain Nat Nat Nat Nat).train_loss.isSome = true) :=
  ⟨⟨rfl, rfl,
    (train_loss_read_safety natBrainHParams [BrainCall.callStart Stage.VALID (some 1)]
      ⟨none, some ⟨[]⟩⟩ [] 5 2 rfl).1 rfl⟩,
   ⟨rfl, rfl,
    (train_loss_read_safety natBrainHParams [BrainCall.callEnd Stage.TRAIN 3 (some 1)]
      ⟨some 3, none⟩ [] 5 2 rfl).2 rfl⟩⟩

/-- C4: `on_stage_end` on TRAIN remembers the stage loss; on VALID with an
epoch it prints the epoch number, the remembered training loss, and the
validation loss; on every non-TRAIN stage the printed lines include the stage
loss and the accumulated phoneme error rate. -/
theorem on_stage_end_spec (hp : BrainHParams L ι β α)
    (b : TransducerBrain L ι β α) (stage : Stage) (sl : L) (epoch : Option Nat) :
    (stage = Stage.TRAIN →
      on_stage_end hp b stage sl epoch =
        Except.ok ({ b with train_loss := some sl }, [])) ∧
    (∀ e tl m, stage = Stage.VALID → epoch = some e → b.train_loss = some tl →
      b.per_metrics = some m →
      on_stage_end hp b stage sl epoch =
        Except.ok (b, [PrintEvent.epochComplete e, PrintEvent.trainLoss tl,
          PrintEvent.stageLoss Stage.VALID sl,
          PrintEvent.stagePER Stage.VALID (hp.summarize m)])) ∧
    (∀ m bres pout, stage ≠ Stage.TRAIN → b.per_metrics = some m →
      on_stage_end hp b stage sl epoch = Except.ok (bres, pout) →
      PrintEvent.stageLoss stage sl ∈ pout ∧
      PrintEvent.stagePER stage (hp.summarize m) ∈ pout) := by
  refine ⟨?_, ?_, ?_⟩
  · intro hs
    subst hs
    cases epoch <;> simp [on_stage_end]
  · intro e tl m hs he htl hm
    subst hs
    subst he
    simp [on_stage_end, htl, hm]
  · intro m bres pout hs hm hok
    cases stage with
    | TRAIN => exact absurd rfl hs
    | VALID =>
      cases epoch with
      | none =>
        simp [on_stage_end, hm] at hok
        obtain ⟨_, h2⟩ := hok
        simp [← h2]
      | some e =>
        rcases htl : b.train_loss with _ | tl
        · simp [on_stage_end, htl, hm] at hok
        · simp [on_stage_end, htl, hm] at hok
          obtain ⟨_, h2⟩ := hok
          simp [← h2]
    | TEST =>
      cases epoch <;>
        (simp [on_stage_end, hm] at hok
         obtain ⟨_, h2⟩ := hok
         simp [← h2])

/-- Witness for C4 at a concrete wrapper state, covering the TRAIN, VALID and
non-TRAIN conjuncts. -/
theorem on_stage_end_spec_witness :
    (on_stage_end natBrainHParams ⟨some 5, some ⟨[]⟩⟩ Stage.TRAIN 3 (some 1) =
      Except.ok (⟨some 3, some ⟨[]⟩⟩, [])) ∧
    (on_stage_end natBrainHParams ⟨some 5, some ⟨[]⟩⟩ Stage.VALID 4 (some 1) =
      Except.ok (⟨some 5, some ⟨[]⟩⟩,
        [PrintEvent.epochComplete 1, PrintEvent.trainLoss 5,
         PrintEvent.stageLoss Stage.VALID 4, PrintEvent.stagePER Stage.VALID 0])) ∧
    (PrintEvent.stageLoss Stage.TEST (6 : Nat) ∈
        [PrintEvent.stageLoss Stage.TEST (6 : Nat), PrintEvent.stagePER Stage.TEST 0] ∧
     PrintEvent.stagePER Stage.TEST (0 : Nat) ∈
        [PrintEvent.stageLoss Stage.TEST (6 : Nat), PrintEvent.stagePER Stage.TEST 0]) :=
  ⟨(on_stage_end_spec natBrainHParams ⟨some 5, some ⟨[]⟩⟩ Stage.TRAIN 3 (some 1)).1 rfl,
   (on_stage_end_spec natBrainHParams ⟨some 5, some ⟨[]⟩⟩ Stage.VALID 4 (some 1)).2.1
     1 5 ⟨[]⟩ rfl rfl rfl rfl,
   (on_stage_end_spec natBrainHParams ⟨some 5, some ⟨[]⟩⟩ Stage.TEST 6 none).2.2
     ⟨[]⟩ ⟨some 5, some ⟨[]⟩⟩
     [PrintEvent.stageLoss Stage.TEST 6, PrintEvent.stagePER Stage.TEST 0]
     (by decide) rfl rfl⟩

/-- Vocabulary fitting never changes the configured bos index. -/
theorem foldl_ensure_bos_index (l : List String) (e : CTCTextEncoder) :
    (l.foldl (fun a t => a.ensure_label t) e).bos_index = e.bos_index := by
  induction l generalizing e with
  | nil => rfl
  | cons t rest ih =>
    rw [List.foldl_cons, ih]
    unfold CTCTextEncoder.ensure_label CTCTextEncoder.add_label
    split <;> rfl

/-- The encoder returned by `data_prep` carries the configured bos index. -/
theorem data_prep_bos_index (tm dm : List DataRecord) (hp : PrepHParams) :
    ((data_prep tm dm hp).2.2).bos_index = some hp.bos_index := by
  unfold data_prep CTCTextEncoder.update_from_didataset
  rw [foldl_ensure_bos_index, foldl_ensure_bos_index]
  rfl

/-- C1: for every record of the datasets produced by `data_prep`, a successful
run of the text pipeline yields a bos-prefixed sequence one longer than the
plain encoded sequence, whose first element is the configured bos index. -/
theorem text_pipeline_bos_shape (tm dm : List DataRecord) (hp : PrepHParams)
    (r : DataRecord) (res : TextPipelineOut)
    (hr : r ∈ (data_prep tm dm hp).1.records ∨ r ∈ (data_prep tm dm hp).2.1.records)
    (h : text_pipeline (data_prep tm dm hp).2.2 r.phn = some res) :
    res.phn_encoded_bos.length = res.phn_encoded.length + 1 ∧
    res.phn_encoded_bos.head? = some hp.bos_index := by
  have hb := data_prep_bos_index tm dm hp
  unfold text_pipeline at h
  rcases henc : (data_prep tm dm hp).2.2.encode_sequence_torch (pySplit r.phn)
      with _ | enc
  · rw [henc] at h
    exact absurd h (by simp)
  · rw [henc] at h
    unfold CTCTextEncoder.prepend_bos_index at h
    rw [hb] at h
    simp only [Option.map_some] at h
    cases h
    simp

/-- Witness for C1 at a concrete manifest and record. -/
theorem text_pipeline_bos_shape_witness :
    ((⟨"u1", "s1.wav", "a b"⟩ : DataRecord) ∈
        (data_prep [⟨"u1", "s1.wav", "a b"⟩] [] ⟨0, 1⟩).1.records ∨
      (⟨"u1", "s1.wav", "a b"⟩ : DataRecord) ∈
        (data_prep [⟨"u1", "s1.wav", "a b"⟩] [] ⟨0, 1⟩).2.1.records) ∧
    text_pipeline (data_prep [⟨"u1", "s1.wav", "a b"⟩] [] ⟨0, 1⟩).2.2 "a b" =
      some ⟨["a", "b"], [3, 4], [1, 3, 4]⟩ ∧
    (([1, 3, 4] : List Nat).length = ([3, 4] : List Nat).length + 1 ∧
      ([1, 3, 4] : List Nat).head? = some 1) :=
  ⟨Or.inl (by decide), by decide,
   text_pipeline_bos_shape [⟨"u1", "s1.wav", "a b"⟩] [] ⟨0, 1⟩
     ⟨"u1", "s1.wav", "a b"⟩ ⟨["a", "b"], [3, 4], [1, 3, 4]⟩
     (Or.inl (by decide)) (by decide)⟩

/-- Unfolding one step of `addNew`. -/
theorem addNew_cons (p : List String) (t : String) (rest : List String) :
    addNew p (t :: rest) = addNew (if t ∈ p then p else p ++ [t]) rest := rfl

/-- `addNew` over a concatenation is sequential fitting. -/
theorem addNew_append (s l1 l2 : List String) :
    addNew s (l1 ++ l2) = addNew (addNew s l1) l2 := by
  simp [addNew, List.foldl_append]

/-- One `ensure_label` step, at the level of label lists. -/
theorem labels_ensure (e : CTCTextEncoder) (t : String) :
    (e.ensure_label t).labels = if t ∈ e.labels then e.labels else e.labels ++ [t] := by
  unfold CTCTextEncoder.ensure_label CTCTextEncoder.add_label CTCTextEncoder.labels
  split
  · rfl
  · simp

/-- Vocabulary fitting, at the level of label lists, is `addNew`. -/
theorem labels_foldl_ensure (l : List String) :
    ∀ e : CTCTextEncoder,
    (l.foldl (fun a t => a.ensure_label t) e).labels = addNew e.labels l := by
  induction l with
  | nil => intro e; rfl
  | cons t rest ih =>
    intro e
    rw [List.foldl_cons, addNew_cons, ih, labels_ensure]

/-- Fitting tokens disjoint from a prefix of seen labels leaves that prefix
untouched. -/
theorem addNew_disjoint :
    ∀ (l p s : List String), (∀ t ∈ l, t ∉ s) → addNew (s ++ p) l = s ++ addNew p l := by
  intro l
  induction l with
  | nil => intro p s _; rfl
  | cons t rest ih =>
    intro p s h
    have hts : t ∉ s := h t (List.mem_cons_self t rest)
    have hrest : ∀ x ∈ rest, x ∉ s := fun x hx => h x (List.mem_cons_of_mem t hx)
    rw [addNew_cons, addNew_cons]
    by_cases hm : t ∈ p
    · have hsp : t ∈ s ++ p := List.mem_append.mpr (Or.inr hm)
      rw [if_pos hsp, if_pos hm]
      exact ih p s hrest
    · have hsp : t ∉ s ++ p := by
        intro hc
        rcases List.mem_append.mp hc with h1 | h2
        · exact hts h1
        · exact hm h2
      rw [if_neg hsp, if_neg hm, List.append_assoc]
      exact ih (p ++ [t]) s hrest

/-- `addNew` keeps the seen list free of duplicates. -/
theorem addNew_nodup : ∀ (l p : List String), p.Nodup → (addNew p l).Nodup := by
  intro l
  induction l with
  | nil => intro p h; exact h
  | cons t rest ih =>
    intro p h
    rw [addNew_cons]
    by_cases hm : t ∈ p
    · rw [if_pos hm]
      exact ih p h
    · rw [if_neg hm]
      refine ih _ ?_
      simp [List.nodup_append, h, hm]

/-- `addNew` collects exactly the seen and new labels. -/
theorem addNew_toFinset :
    ∀ (l p : List String), (addNew p l).toFinset = p.toFinset ∪ l.toFinset := by
  intro l
  induction l with
  | nil => intro p; simp [addNew]
  | cons t rest ih =>
    intro p
    rw [addNew_cons]
    by_cases hm : t ∈ p
    · rw [if_pos hm, ih]
      ext x
      simp only [Finset.mem_union, List.mem_toFinset, List.mem_cons]
      constructor
      · intro hx
        rcases hx with hx | hx
        · exact Or.inl hx
        · exact Or.inr (Or.inr hx)
      · intro hx
        rcases hx with hx | hx | hx
        · exact Or.inl hx
        · subst hx
          exact Or.inl hm
        · exact Or.inr hx
    · rw [if_neg hm, ih]
      ext x
      simp only [Finset.mem_union, List.mem_toFinset, List.mem_append,
        List.mem_cons, List.mem_singleton]
      tauto

/-- Starting from nothing seen, `addNew` has as many entries as there are
distinct tokens. -/
theorem addNew_nil_length (l : List String) :
    (addNew [] l).length = l.dedup.length := by
  have hnd : (addNew [] l).Nodup := addNew_nodup l [] List.nodup_nil
  have htf : (addNew [] l).toFinset = l.toFinset := by
    rw [addNew_toFinset]
    simp
  calc (addNew [] l).length
      = (addNew [] l).toFinset.card := (List.toFinset_card_of_nodup hnd).symm
    _ = l.toFinset.card := by rw [htf]
    _ = l.dedup.length := by rw [List.card_toFinset]

/-- The label list of the encoder returned by `data_prep`: the three reserved
entries, then each distinct token of train and dev data in first-seen order. -/
theorem data_prep_labels (tm dm : List DataRecord) (hp : PrepHParams) :
    ((data_prep tm dm hp).2.2).labels =
      addNew ["<blank>", "<bos>", "<bos>"] (tokensOf tm ++ tokensOf dm) := by
  unfold data_prep CTCTextEncoder.update_from_didataset
  rw [labels_foldl_ensure, labels_foldl_ensure, addNew_append]
  rfl

/-- C2: the fitted label encoder's vocabulary size is the number of distinct
phoneme symbols across the train and dev data plus the three reserved tokens,
provided no phoneme symbol collides with a reserved label. -/
theorem data_prep_vocab_size (tm dm : List DataRecord) (hp : PrepHParams)
    (h : ∀ t ∈ tokensOf tm ++ tokensOf dm, t ≠ "<blank>" ∧ t ≠ "<bos>") :
    ((data_prep tm dm hp).2.2).lab2ind.length =
      (tokensOf tm ++ tokensOf dm).dedup.length + 3 := by
  have hlen : ((data_prep tm dm hp).2.2).labels.length =
      ((data_prep tm dm hp).2.2).lab2ind.length := by
    simp [CTCTextEncoder.labels]
  rw [← hlen, data_prep_labels]
  have hdisj : ∀ t ∈ tokensOf tm ++ tokensOf dm,
      t ∉ (["<blank>", "<bos>", "<bos>"] : List String) := by
    intro t ht
    have ht2 := h t ht
    simp [ht2.1, ht2.2]
  have hsplit : addNew (["<blank>", "<bos>", "<bos>"] ++ [])
        (tokensOf tm ++ tokensOf dm) =
      ["<blank>", "<bos>", "<bos>"] ++ addNew [] (tokensOf tm ++ tokensOf dm) :=
    addNew_disjoint _ _ _ hdisj
  rw [List.append_nil] at hsplit
  rw [hsplit, List.length_append, addNew_nil_length]
  simp only [List.length_cons, List.length_nil]
  omega

/-- Witness for C2 at a concrete manifest pair with three distinct symbols. -/
theorem data_prep_vocab_size_witness :
    (∀ t ∈ tokensOf [⟨"u1", "s1.wav", "a b a"⟩] ++ tokensOf [⟨"u2", "s2.wav", "b c"⟩],
      t ≠ "<blank>" ∧ t ≠ "<bos>") ∧
    ((data_prep [⟨"u1", "s1.wav", "a b a"⟩] [⟨"u2", "s2.wav", "b c"⟩] ⟨0, 1⟩).2.2).lab2ind.length =
      (tokensOf [⟨"u1", "s1.wav", "a b a"⟩] ++ tokensOf [⟨"u2", "s2.wav", "b c"⟩]).dedup.length + 3 :=
  ⟨by decide,
   data_prep_vocab_size [⟨"u1", "s1.wav", "a b a"⟩] [⟨"u2", "s2.wav", "b c"⟩] ⟨0, 1⟩
     (by decide)⟩
